import Mathlib

/-!
Shallow embedding of the turn engine of `codenames/game.py` (the `Game` class).

The mutable Python state that the engine touches is `words_on_board`
(aliased as `words_in_play` inside `Game.run`), `key_grid` and
`move_history`; it is modelled as the structure `GameState` below, threaded
explicitly.  `Game._accept_guess` becomes the pure function `accept_guess`,
the inner `while keep_guessing` loop of `Game.run` becomes `guessLoop`
(driven by a finite trace of guesser responses), one iteration of the outer
`while` loop becomes `runTurn`, and the outer loop itself becomes `runLoop`
(driven by a finite trace of codemaster/guesser responses; a run that would
query the roles beyond the supplied trace is truncated there).
-/

namespace Codenames

/-- The `GameCondition` enum of `game.py` (lines 11-16). -/
inductive GameCondition where
  | RED_TURN
  | BLUE_TURN
  | RED_WIN
  | BLUE_WIN
deriving DecidableEq

/-- Entries of `Game.move_history`.  The code appends heterogeneous lists:
`[team+"_Codemaster", clue, clue_num]` (line 323) and
`[team+"_Guesser", guess_answer, words_on_board[idx], keep_guessing]`
(lines 349 and 359); they are modelled as a tagged union. -/
inductive MoveEntry where
  | clueEvent (agent : String) (clue : String) (clue_num : Nat)
  | guessEvent (agent : String) (word : String) (revealed : String) (continued : Bool)
deriving DecidableEq

/-- Returns true on clue entries of the move history. -/
def isClueEvent : MoveEntry → Bool
  | MoveEntry.clueEvent _ _ _ => true
  | MoveEntry.guessEvent _ _ _ _ => false

/-- Returns true on guess entries of the move history. -/
def isGuessEvent : MoveEntry → Bool
  | MoveEntry.clueEvent _ _ _ => false
  | MoveEntry.guessEvent _ _ _ _ => true

/-- `self.num_red_words = 9` (line 85). -/
def num_red_words : Nat := 9

/-- `self.num_blue_words = 8` (line 86). -/
def num_blue_words : Nat := 8

/-- `self.num_civilian_words = 7` (line 87). -/
def num_civilian_words : Nat := 7

/-- `self.num_assassin_words = 1` (line 88). -/
def num_assassin_words : Nat := 1

/-- The engine state mutated during `Game.run`: the board view
`words_on_board`, the hidden `key_grid` and the `move_history`. -/
structure GameState where
  words_on_board : List String
  key_grid : List String
  move_history : List MoveEntry
deriving DecidableEq

/-- The key grid as built on lines 111-112, before `random.shuffle`:
9 `"Red"`, 8 `"Blue"`, 7 `"Civilian"`, 1 `"Assassin"`.  A shuffled grid is
any permutation of this list. -/
def initial_key_grid : List String :=
  List.replicate num_red_words "Red" ++ List.replicate num_blue_words "Blue" ++
    List.replicate num_civilian_words "Civilian" ++
    List.replicate num_assassin_words "Assassin"

/-- The display marker written into `words_on_board` when a cell of the
given category is revealed (`"*Red*"`, `"*Blue*"`, ...). -/
def sentinelFor (category : String) : String := "*" ++ category ++ "*"

/-- How many cells of a category are revealed: the count of that category's
marker in `words_on_board`, exactly as `Game._accept_guess` and
`Game.write_results` count it. -/
def countRevealed (s : GameState) (category : String) : Nat :=
  s.words_on_board.count (sentinelFor category)

/-- `Game._accept_guess` (lines 193-221), as a pure function on the state.
Python's `self.key_grid[guess_index]` is read with `List.getD _ _ ""`; every
call site passes an index obtained from `words_in_play.index(...)`, hence in
range, so the default is never consulted in a run. -/
def accept_guess (s : GameState) (guess_index : Nat) (game_condition : GameCondition) :
    GameState × GameCondition :=
  if s.key_grid.getD guess_index "" = "Red" then
    if num_red_words ≤ (s.words_on_board.set guess_index "*Red*").count "*Red*" then
      ({ s with words_on_board := s.words_on_board.set guess_index "*Red*" },
        GameCondition.RED_WIN)
    else
      ({ s with words_on_board := s.words_on_board.set guess_index "*Red*" },
        GameCondition.RED_TURN)
  else if s.key_grid.getD guess_index "" = "Blue" then
    if num_blue_words ≤ (s.words_on_board.set guess_index "*Blue*").count "*Blue*" then
      ({ s with words_on_board := s.words_on_board.set guess_index "*Blue*" },
        GameCondition.BLUE_WIN)
    else
      ({ s with words_on_board := s.words_on_board.set guess_index "*Blue*" },
        GameCondition.BLUE_TURN)
  else if s.key_grid.getD guess_index "" = "Assassin" then
    if game_condition = GameCondition.RED_TURN then
      ({ s with words_on_board := s.words_on_board.set guess_index "*Assassin*" },
        GameCondition.BLUE_WIN)
    else
      ({ s with words_on_board := s.words_on_board.set guess_index "*Assassin*" },
        GameCondition.RED_WIN)
  else
    if game_condition = GameCondition.RED_TURN then
      ({ s with words_on_board := s.words_on_board.set guess_index "*Civilian*" },
        GameCondition.BLUE_TURN)
    else
      ({ s with words_on_board := s.words_on_board.set guess_index "*Civilian*" },
        GameCondition.RED_TURN)

/-- Python's `str.upper()` on the ASCII words this game uses: uppercase
every character. -/
def pyUpper (s : String) : String := String.mk (s.data.map Char.toUpper)

/-- Drop leading whitespace characters. -/
def dropWS : List Char → List Char
  | [] => []
  | c :: t => if c.isWhitespace then dropWS t else c :: t

/-- Python's `str.strip()`: drop whitespace from both ends. -/
def pyStrip (s : String) : String :=
  String.mk ((dropWS ((dropWS s.data).reverse)).reverse)

/-- The normalisation `guess_answer.upper().strip()` applied on line 341
before the board lookup. -/
def normalizeGuess (g : String) : String := pyStrip (pyUpper g)

/-- Python's `list.index` (line 341): the index of the first occurrence,
`none` where Python raises `ValueError`. -/
def indexOfWord (w : String) : List String → Option Nat
  | [] => none
  | a :: t => if a = w then some 0 else (indexOfWord w t).map (· + 1)

/-- The single error kind the engine can raise during a run: the board
lookup on line 341 fails because the guessed word is not an unrevealed word
of the current view (the spec's `InvalidGuessError`; CPython surfaces it as
the `ValueError` of `list.index`). -/
inductive GameError where
  | invalidGuess (word : String)
deriving DecidableEq

/-- The turn flip on lines 351-355 (`if not keep_guessing: ...`). -/
def flipTurn (c : GameCondition) : GameCondition :=
  if c = GameCondition.RED_TURN then GameCondition.BLUE_TURN
  else if c = GameCondition.BLUE_TURN then GameCondition.RED_TURN
  else c

/-- The single-team forcing on lines 361-363: in the single-team version a
`BLUE_TURN` condition is replaced by `RED_TURN`. -/
def forceSingleTeam (single_team : Bool) (c : GameCondition) : GameCondition :=
  if single_team = true ∧ c = GameCondition.BLUE_TURN then GameCondition.RED_TURN else c

/-- One iteration of the inner `while keep_guessing` loop of `Game.run`
(lines 331-363).  `guess_answer` and `keep_resp` are the values the guesser
would return from `get_answer()` and `keep_guessing()` on this iteration.
The result carries the new state, the new `game_condition`, the
`keep_guessing` flag after the iteration (false on the sentinel `break`),
and how many times `keep_guessing()` was actually called (0 or 1). -/
def guessIter (single_team : Bool) (current_team : String)
    (guess_answer : Option String) (keep_resp : Bool)
    (s : GameState) (game_condition : GameCondition) :
    Except GameError (GameState × GameCondition × Bool × Nat) :=
  if guess_answer = none ∨ guess_answer = some "no comparisons" then
    Except.ok (s, game_condition, false, 0)
  else
    match indexOfWord (normalizeGuess (guess_answer.getD "")) s.words_on_board with
    | none => Except.error (GameError.invalidGuess (guess_answer.getD ""))
    | some idx =>
      if game_condition = (accept_guess s idx game_condition).2 then
        Except.ok
          ({ (accept_guess s idx game_condition).1 with
              move_history := (accept_guess s idx game_condition).1.move_history ++
                [MoveEntry.guessEvent (current_team ++ "_Guesser") (guess_answer.getD "")
                  ((accept_guess s idx game_condition).1.words_on_board.getD idx "")
                  keep_resp] },
            forceSingleTeam single_team
              (if keep_resp then game_condition else flipTurn game_condition),
            keep_resp, 1)
      else
        Except.ok
          ({ (accept_guess s idx game_condition).1 with
              move_history := (accept_guess s idx game_condition).1.move_history ++
                [MoveEntry.guessEvent (current_team ++ "_Guesser") (guess_answer.getD "")
                  ((accept_guess s idx game_condition).1.words_on_board.getD idx "")
                  false] },
            forceSingleTeam single_team (accept_guess s idx game_condition).2,
            false, 0)

/-- The inner `while keep_guessing` loop of `Game.run`, driven by a finite
trace of guesser responses (one `(get_answer, keep_guessing)` pair per
iteration).  The third component of the result is the total number of
`keep_guessing()` calls made during the loop.  An empty trace truncates the
run at the point where the guesser would be queried again. -/
def guessLoop (single_team : Bool) (current_team : String) :
    List (Option String × Bool) → GameState → GameCondition →
    Except GameError (GameState × GameCondition × Nat)
  | [], s, game_condition => Except.ok (s, game_condition, 0)
  | (ans, kp) :: rest, s, game_condition =>
    match guessIter single_team current_team ans kp s game_condition with
    | Except.error e => Except.error e
    | Except.ok (s2, cond2, keep, calls) =>
      if keep then
        match guessLoop single_team current_team rest s2 cond2 with
        | Except.error e => Except.error e
        | Except.ok (s3, cond3, calls2) => Except.ok (s3, cond3, calls + calls2)
      else
        Except.ok (s2, cond2, calls)

/-- Team selection at the top of the outer loop (lines 300-309): `"Red"` on
`RED_TURN`, `"Blue"` otherwise. -/
def current_team (c : GameCondition) : String :=
  if c = GameCondition.RED_TURN then "Red" else "Blue"

/-- The responses produced by the current team's codemaster and guesser
during one iteration of the outer loop: the clue pair returned by
`get_clue()` and the trace of guesser responses. -/
structure TurnInput where
  clue : String
  clue_num : Nat
  guesses : List (Option String × Bool)
deriving DecidableEq

/-- One iteration of the outer `while` loop of `Game.run` (lines 300-363):
record the clue (line 323), bump `turn_counter` (line 324), then run the
inner guess loop. -/
def runTurn (single_team : Bool) (ti : TurnInput) (s : GameState)
    (game_condition : GameCondition) (turn_counter : Nat) :
    Except GameError (GameState × GameCondition × Nat) :=
  match guessLoop single_team (current_team game_condition) ti.guesses
      { s with move_history := s.move_history ++
        [MoveEntry.clueEvent (current_team game_condition ++ "_Codemaster")
          ti.clue ti.clue_num] } game_condition with
  | Except.error e => Except.error e
  | Except.ok (s2, cond2, _) => Except.ok (s2, cond2, turn_counter + 1)

/-- The outer `while` loop of `Game.run` (line 298): run turns until the
condition is `RED_WIN` or `BLUE_WIN`, driven by a finite trace of turn
inputs.  An empty trace truncates the run at the point where the roles
would be queried again. -/
def runLoop (single_team : Bool) :
    List TurnInput → GameState → GameCondition → Nat →
    Except GameError (GameState × GameCondition × Nat)
  | [], s, game_condition, turn_counter => Except.ok (s, game_condition, turn_counter)
  | t :: rest, s, game_condition, turn_counter =>
    if game_condition = GameCondition.RED_WIN ∨ game_condition = GameCondition.BLUE_WIN then
      Except.ok (s, game_condition, turn_counter)
    else
      match runTurn single_team t s game_condition turn_counter with
      | Except.error e => Except.error e
      | Except.ok (s2, cond2, tc2) => runLoop single_team rest s2 cond2 tc2

/-- The four key-grid labels. -/
def isCategory (c : String) : Prop :=
  c = "Red" ∨ c = "Blue" ∨ c = "Civilian" ∨ c = "Assassin"

instance (c : String) : Decidable (isCategory c) := by
  unfold isCategory; infer_instance

/-- Per-cell consistency between the board view and the key grid: a cell
displaying a category marker has that category in the key grid. -/
def cellInv (w k : String) : Prop :=
  (w = "*Red*" → k = "Red") ∧ (w = "*Blue*" → k = "Blue") ∧
    (w = "*Civilian*" → k = "Civilian") ∧ (w = "*Assassin*" → k = "Assassin")

instance (w k : String) : Decidable (cellInv w k) := by
  unfold cellInv; infer_instance

/-- The board/key consistency invariant, cell by cell. -/
def boardInv (s : GameState) : Prop :=
  ∀ p ∈ s.words_on_board.zip s.key_grid, cellInv p.1 p.2

instance (s : GameState) : Decidable (boardInv s) := by
  unfold boardInv; exact List.decidableBAll _ _

/-- The state invariant: board and key grid have equal length, every key
label is one of the four categories, and revealed markers agree with the
key grid. -/
def Inv (s : GameState) : Prop :=
  s.words_on_board.length = s.key_grid.length ∧
    (∀ k ∈ s.key_grid, isCategory k) ∧ boardInv s

instance (s : GameState) : Decidable (Inv s) := by
  unfold Inv
  have : Decidable (∀ k ∈ s.key_grid, isCategory k) := List.decidableBAll _ _
  infer_instance

/-- The quota of the team whose turn it is: `num_red_words` on `RED_TURN`,
`num_blue_words` on `BLUE_TURN`. -/
def team_quota (c : GameCondition) : Nat :=
  if c = GameCondition.RED_TURN then num_red_words else num_blue_words

/-- A concrete 25-word board used to instantiate the theorems on closed
inputs. -/
def sample_words : List String :=
  ["ALPHA", "BRAVO", "CHARLIE", "DELTA", "ECHO", "FOXTROT", "GOLF", "HOTEL",
    "INDIA", "JULIET", "KILO", "LIMA", "MIKE", "NOVEMBER", "OSCAR", "PAPA",
    "QUEBEC", "ROMEO", "SIERRA", "TANGO", "UNIFORM", "VICTOR", "WHISKEY",
    "XRAY", "YANKEE"]

/-- A concrete initial game state on a full 25-cell board (key grid taken
unshuffled, which is one admissible shuffle outcome). -/
def sample_state : GameState :=
  { words_on_board := sample_words, key_grid := initial_key_grid, move_history := [] }

/-- A small concrete state used to instantiate the per-guess theorems. -/
def mini_state : GameState :=
  { words_on_board := ["ALPHA", "BRAVO", "CHARLIE", "DELTA"],
    key_grid := ["Red", "Civilian", "Assassin", "Blue"],
    move_history := [] }

/-! ### Helper lemmas: lookup, set and count -/

theorem not_sentinel_some (g : String) (hg : g ≠ "no comparisons") :
    ¬(some g = none ∨ some g = some "no comparisons") := by
  intro h
  rcases h with h | h
  · exact Option.noConfusion h
  · exact hg (Option.some.inj h)

theorem indexOfWord_eq_none_iff (w : String) :
    ∀ l : List String, indexOfWord w l = none ↔ w ∉ l := by
  intro l
  induction l with
  | nil => simp [indexOfWord]
  | cons a t ih =>
    by_cases h : a = w
    · subst h
      simp [indexOfWord]
    · rw [indexOfWord, if_neg h, List.mem_cons]
      simp only [Option.map_eq_none']
      rw [ih]
      constructor
      · intro hw hc
        rcases hc with hc | hc
        · exact h hc.symm
        · exact hw hc
      · intro hc hw
        exact hc (Or.inr hw)

theorem indexOfWord_getElem? (w : String) :
    ∀ (l : List String) (i : Nat), indexOfWord w l = some i → l[i]? = some w := by
  intro l
  induction l with
  | nil =>
    intro i h
    exact Option.noConfusion h
  | cons a t ih =>
    intro i h
    by_cases ha : a = w
    · rw [indexOfWord, if_pos ha] at h
      injection h with h2
      subst h2
      simpa using ha
    · rw [indexOfWord, if_neg ha] at h
      cases hx : indexOfWord w t with
      | none =>
        rw [hx] at h
        exact Option.noConfusion h
      | some j =>
        rw [hx] at h
        simp only [Option.map_some'] at h
        injection h with h2
        subst h2
        simpa using ih j hx

theorem getElem?_of_getD (l : List String) (i : Nat) (c : String) (hc : c ≠ "")
    (h : l.getD i "" = c) : l[i]? = some c := by
  rw [List.getD_eq_getElem?_getD] at h
  cases hx : l[i]? with
  | none =>
    rw [hx] at h
    simp only [Option.getD_none] at h
    exact absurd h.symm hc
  | some v =>
    rw [hx] at h
    simp only [Option.getD_some] at h
    rw [h]

theorem getD_set_self (l : List String) (i : Nat) (a d : String) (h : i < l.length) :
    (l.set i a).getD i d = a := by
  rw [List.getD_eq_getElem?_getD, List.getElem?_set_self h]
  rfl

theorem mem_zip_set (x : String) :
    ∀ (l1 l2 : List String) (i : Nat) (p : String × String),
      p ∈ (l1.set i x).zip l2 →
      p ∈ l1.zip l2 ∨ (p.1 = x ∧ l2[i]? = some p.2) := by
  intro l1
  induction l1 with
  | nil =>
    intro l2 i p hp
    simp [List.set] at hp
  | cons a t ih =>
    intro l2 i p hp
    cases l2 with
    | nil =>
      simp at hp
    | cons b t2 =>
      cases i with
      | zero =>
        rw [show (a :: t).set 0 x = x :: t from rfl, List.zip_cons_cons] at hp
        rcases List.mem_cons.mp hp with hp | hp
        · right
          rw [hp]
          exact ⟨rfl, by simp⟩
        · left
          rw [List.zip_cons_cons]
          exact List.mem_cons_of_mem _ hp
      | succ n =>
        rw [show (a :: t).set (n + 1) x = a :: t.set n x from rfl,
          List.zip_cons_cons] at hp
        rcases List.mem_cons.mp hp with hp | hp
        · left
          rw [hp, List.zip_cons_cons]
          exact List.mem_cons_self _ _
        · rcases ih t2 n p hp with h2 | h2
          · left
            rw [List.zip_cons_cons]
            exact List.mem_cons_of_mem _ h2
          · right
            exact ⟨h2.1, by simpa using h2.2⟩

theorem count_le_count_of_zip (x y : String) :
    ∀ (l1 l2 : List String), l1.length = l2.length →
      (∀ p ∈ l1.zip l2, p.1 = x → p.2 = y) →
      l1.count x ≤ l2.count y := by
  intro l1
  induction l1 with
  | nil =>
    intro l2 _ _
    simp
  | cons a t ih =>
    intro l2 hlen hpt
    cases l2 with
    | nil =>
      simp at hlen
    | cons b t2 =>
      have hlen2 : t.length = t2.length := by simpa using hlen
      have hpt2 : ∀ p ∈ t.zip t2, p.1 = x → p.2 = y := by
        intro p hp hpx
        exact hpt p (by rw [List.zip_cons_cons]; exact List.mem_cons_of_mem _ hp) hpx
      have hmain := ih t2 hlen2 hpt2
      by_cases hax : a = x
      · have hby : b = y :=
          hpt (a, b) (by rw [List.zip_cons_cons]; exact List.mem_cons_self _ _) hax
        rw [List.count_cons, List.count_cons]
        simp only [hax, hby, beq_self_eq_true, if_true]
        omega
      · rw [List.count_cons]
        have hbeq : (a == x) = false := by
          simpa using hax
        rw [hbeq]
        simp only [Bool.false_eq_true, if_false, Nat.add_zero]
        exact Nat.le_trans hmain (List.count_le_count_cons y b t2)

theorem count_set_of_getElem? (w x : String) (hxw : x ≠ w) :
    ∀ (l : List String) (i : Nat), l[i]? = some w →
      (l.set i x).count w + 1 = l.count w := by
  intro l
  induction l with
  | nil =>
    intro i h
    exact Option.noConfusion h
  | cons a t ih =>
    intro i h
    cases i with
    | zero =>
      have ha : a = w := by simpa using h
      subst ha
      show (x :: t).count a + 1 = (a :: t).count a
      rw [List.count_cons_of_ne (Ne.symm hxw), List.count_cons_self]
    | succ n =>
      have h2 : t[n]? = some w := by simpa using h
      show (a :: t.set n x).count w + 1 = (a :: t).count w
      rw [List.count_cons, List.count_cons]
      have := ih n h2
      omega

theorem not_mem_set_of_count_one (w x : String) (hxw : x ≠ w)
    (l : List String) (i : Nat) (h : l[i]? = some w) (hc : l.count w = 1) :
    w ∉ l.set i x := by
  have h2 := count_set_of_getElem? w x hxw l i h
  rw [hc] at h2
  have h3 : (l.set i x).count w = 0 := by omega
  exact List.count_eq_zero.mp h3

/-! ### Helper lemmas: `accept_guess` -/

theorem accept_guess_red (s : GameState) (i : Nat) (c : GameCondition)
    (h : s.key_grid.getD i "" = "Red") :
    accept_guess s i c =
      if num_red_words ≤ (s.words_on_board.set i "*Red*").count "*Red*" then
        ({ s with words_on_board := s.words_on_board.set i "*Red*" },
          GameCondition.RED_WIN)
      else
        ({ s with words_on_board := s.words_on_board.set i "*Red*" },
          GameCondition.RED_TURN) := by
  unfold accept_guess
  rw [if_pos h]

theorem accept_guess_blue (s : GameState) (i : Nat) (c : GameCondition)
    (h : s.key_grid.getD i "" = "Blue") :
    accept_guess s i c =
      if num_blue_words ≤ (s.words_on_board.set i "*Blue*").count "*Blue*" then
        ({ s with words_on_board := s.words_on_board.set i "*Blue*" },
          GameCondition.BLUE_WIN)
      else
        ({ s with words_on_board := s.words_on_board.set i "*Blue*" },
          GameCondition.BLUE_TURN) := by
  unfold accept_guess
  rw [if_neg (by rw [h]; decide), if_pos h]

theorem accept_guess_assassin (s : GameState) (i : Nat) (c : GameCondition)
    (h : s.key_grid.getD i "" = "Assassin") :
    accept_guess s i c =
      if c = GameCondition.RED_TURN then
        ({ s with words_on_board := s.words_on_board.set i "*Assassin*" },
          GameCondition.BLUE_WIN)
      else
        ({ s with words_on_board := s.words_on_board.set i "*Assassin*" },
          GameCondition.RED_WIN) := by
  unfold accept_guess
  rw [if_neg (by rw [h]; decide), if_neg (by rw [h]; decide), if_pos h]

theorem accept_guess_civilian (s : GameState) (i : Nat) (c : GameCondition)
    (hr : ¬s.key_grid.getD i "" = "Red") (hb : ¬s.key_grid.getD i "" = "Blue")
    (ha : ¬s.key_grid.getD i "" = "Assassin") :
    accept_guess s i c =
      if c = GameCondition.RED_TURN then
        ({ s with words_on_board := s.words_on_board.set i "*Civilian*" },
          GameCondition.BLUE_TURN)
      else
        ({ s with words_on_board := s.words_on_board.set i "*Civilian*" },
          GameCondition.RED_TURN) := by
  unfold accept_guess
  rw [if_neg hr, if_neg hb, if_neg ha]

theorem accept_guess_key_grid (s : GameState) (i : Nat) (c : GameCondition) :
    (accept_guess s i c).1.key_grid = s.key_grid := by
  unfold accept_guess
  repeat' split
  all_goals rfl

theorem accept_guess_move_history (s : GameState) (i : Nat) (c : GameCondition) :
    (accept_guess s i c).1.move_history = s.move_history := by
  unfold accept_guess
  repeat' split
  all_goals rfl

theorem accept_guess_words (s : GameState) (i : Nat) (c : GameCondition) :
    ∃ cat, isCategory cat ∧
      (accept_guess s i c).1.words_on_board = s.words_on_board.set i (sentinelFor cat) := by
  unfold accept_guess
  repeat' split
  · exact ⟨"Red", Or.inl rfl, rfl⟩
  · exact ⟨"Red", Or.inl rfl, rfl⟩
  · exact ⟨"Blue", Or.inr (Or.inl rfl), rfl⟩
  · exact ⟨"Blue", Or.inr (Or.inl rfl), rfl⟩
  · exact ⟨"Assassin", Or.inr (Or.inr (Or.inr rfl)), rfl⟩
  · exact ⟨"Assassin", Or.inr (Or.inr (Or.inr rfl)), rfl⟩
  · exact ⟨"Civilian", Or.inr (Or.inr (Or.inl rfl)), rfl⟩
  · exact ⟨"Civilian", Or.inr (Or.inr (Or.inl rfl)), rfl⟩

/-! ### Helper lemmas: the invariant -/

theorem boardInv_set (s : GameState) (i : Nat) (cat : String) (hcat : isCategory cat)
    (hk : s.key_grid[i]? = some cat) (hb : boardInv s) :
    boardInv { s with words_on_board := s.words_on_board.set i (sentinelFor cat) } := by
  intro p hp
  rcases mem_zip_set (sentinelFor cat) s.words_on_board s.key_grid i p hp with h | h
  · exact hb p h
  · rcases h with ⟨h1, h2⟩
    rw [hk] at h2
    have h3 : p.2 = cat := (Option.some.inj h2).symm
    rw [h1, h3]
    rcases hcat with h | h | h | h <;> subst h <;> decide

theorem Inv_set_cat (s : GameState) (i : Nat) (cat : String) (hcat : isCategory cat)
    (hk : s.key_grid[i]? = some cat) (hInv : Inv s) :
    Inv { s with words_on_board := s.words_on_board.set i (sentinelFor cat) } := by
  obtain ⟨hlen, hcats, hb⟩ := hInv
  exact ⟨by simpa [List.length_set] using hlen, hcats,
    boardInv_set s i cat hcat hk hb⟩

theorem Inv_accept_guess (s : GameState) (i : Nat) (c : GameCondition) (hInv : Inv s) :
    Inv (accept_guess s i c).1 := by
  by_cases hr : s.key_grid.getD i "" = "Red"
  · rw [accept_guess_red s i c hr]
    have hk := getElem?_of_getD s.key_grid i "Red" (by decide) hr
    have hset := Inv_set_cat s i "Red" (Or.inl rfl) hk hInv
    split
    · exact hset
    · exact hset
  · by_cases hbl : s.key_grid.getD i "" = "Blue"
    · rw [accept_guess_blue s i c hbl]
      have hk := getElem?_of_getD s.key_grid i "Blue" (by decide) hbl
      have hset := Inv_set_cat s i "Blue" (Or.inr (Or.inl rfl)) hk hInv
      split
      · exact hset
      · exact hset
    · by_cases has : s.key_grid.getD i "" = "Assassin"
      · rw [accept_guess_assassin s i c has]
        have hk := getElem?_of_getD s.key_grid i "Assassin" (by decide) has
        have hset := Inv_set_cat s i "Assassin" (Or.inr (Or.inr (Or.inr rfl))) hk hInv
        split
        · exact hset
        · exact hset
      · rw [accept_guess_civilian s i c hr hbl has]
        by_cases hi : i < s.words_on_board.length
        · have hilen : i < s.key_grid.length := hInv.1 ▸ hi
          have hgetD : s.key_grid.getD i "" = s.key_grid[i] := by
            rw [List.getD_eq_getElem?_getD, List.getElem?_eq_getElem hilen]
            rfl
          have hk : s.key_grid[i]? = some (s.key_grid[i]) :=
            List.getElem?_eq_getElem hilen
          have hvcat : isCategory (s.key_grid[i]) :=
            hInv.2.1 _ (List.getElem_mem hilen)
          rcases hvcat with h | h | h | h
          · exact absurd (hgetD.trans h) hr
          · exact absurd (hgetD.trans h) hbl
          · have hset := Inv_set_cat s i "Civilian" (Or.inr (Or.inr (Or.inl rfl)))
              (by rw [hk, h]) hInv
            split
            · exact hset
            · exact hset
          · exact absurd (hgetD.trans h) has
        · have hid : s.words_on_board.set i "*Civilian*" = s.words_on_board :=
            List.set_eq_of_length_le (Nat.le_of_not_lt hi)
          split
          · rw [hid]
            exact hInv
          · rw [hid]
            exact hInv

/-! ### Helper lemmas: `guessIter` -/

theorem guessIter_sentinel (st : Bool) (team : String) (a : Option String) (k : Bool)
    (s : GameState) (c : GameCondition)
    (h : a = none ∨ a = some "no comparisons") :
    guessIter st team a k s c = Except.ok (s, c, false, 0) := by
  unfold guessIter
  rw [if_pos h]

theorem guessIter_missing (st : Bool) (team g : String) (k : Bool) (s : GameState)
    (c : GameCondition) (hg : g ≠ "no comparisons")
    (hidx : indexOfWord (normalizeGuess g) s.words_on_board = none) :
    guessIter st team (some g) k s c = Except.error (GameError.invalidGuess g) := by
  unfold guessIter
  rw [if_neg (not_sentinel_some g hg)]
  simp only [Option.getD_some, hidx]

theorem guessIter_same (st : Bool) (team g : String) (k : Bool) (s : GameState)
    (c : GameCondition) (i : Nat) (hg : g ≠ "no comparisons")
    (hidx : indexOfWord (normalizeGuess g) s.words_on_board = some i)
    (hsame : c = (accept_guess s i c).2) :
    guessIter st team (some g) k s c =
      Except.ok
        ({ (accept_guess s i c).1 with
            move_history := (accept_guess s i c).1.move_history ++
              [MoveEntry.guessEvent (team ++ "_Guesser") g
                ((accept_guess s i c).1.words_on_board.getD i "") k] },
          forceSingleTeam st (if k then c else flipTurn c), k, 1) := by
  unfold guessIter
  rw [if_neg (not_sentinel_some g hg)]
  simp only [Option.getD_some, hidx]
  rw [if_pos hsame]

theorem guessIter_diff (st : Bool) (team g : String) (k : Bool) (s : GameState)
    (c : GameCondition) (i : Nat) (hg : g ≠ "no comparisons")
    (hidx : indexOfWord (normalizeGuess g) s.words_on_board = some i)
    (hdiff : ¬c = (accept_guess s i c).2) :
    guessIter st team (some g) k s c =
      Except.ok
        ({ (accept_guess s i c).1 with
            move_history := (accept_guess s i c).1.move_history ++
              [MoveEntry.guessEvent (team ++ "_Guesser") g
                ((accept_guess s i c).1.words_on_board.getD i "") false] },
          forceSingleTeam st (accept_guess s i c).2, false, 0) := by
  unfold guessIter
  rw [if_neg (not_sentinel_some g hg)]
  simp only [Option.getD_some, hidx]
  rw [if_neg hdiff]

/-! ### Step lemmas: invariant, key grid and history preservation -/

theorem guessIter_ok_inv (st : Bool) (team : String) (a : Option String) (k : Bool)
    (s : GameState) (c : GameCondition) (s2 : GameState) (c2 : GameCondition)
    (kp : Bool) (n : Nat)
    (h : guessIter st team a k s c = Except.ok (s2, c2, kp, n)) :
    (Inv s → Inv s2) ∧ s2.key_grid = s.key_grid ∧
      ∃ d, s2.move_history = s.move_history ++ d ∧ ∀ e ∈ d, isGuessEvent e = true := by
  by_cases hs : a = none ∨ a = some "no comparisons"
  · rw [guessIter_sentinel st team a k s c hs] at h
    simp only [Except.ok.injEq, Prod.mk.injEq] at h
    obtain ⟨h1, _, _, _⟩ := h
    subst h1
    exact ⟨id, rfl, [], by simp, by simp⟩
  · cases a with
    | none => exact absurd (Or.inl rfl) hs
    | some g =>
      have hg : g ≠ "no comparisons" := by
        intro hc
        exact hs (Or.inr (by rw [hc]))
      cases hidx : indexOfWord (normalizeGuess g) s.words_on_board with
      | none =>
        rw [guessIter_missing st team g k s c hg hidx] at h
        exact Except.noConfusion h
      | some i =>
        by_cases hsame : c = (accept_guess s i c).2
        · rw [guessIter_same st team g k s c i hg hidx hsame] at h
          simp only [Except.ok.injEq, Prod.mk.injEq] at h
          obtain ⟨h1, _, _, _⟩ := h
          subst h1
          refine ⟨fun hInv => Inv_accept_guess s i c hInv, accept_guess_key_grid s i c,
            [MoveEntry.guessEvent (team ++ "_Guesser") g
              ((accept_guess s i c).1.words_on_board.getD i "") k], ?_, by simp [isGuessEvent]⟩
          simp [accept_guess_move_history s i c]
        · rw [guessIter_diff st team g k s c i hg hidx hsame] at h
          simp only [Except.ok.injEq, Prod.mk.injEq] at h
          obtain ⟨h1, _, _, _⟩ := h
          subst h1
          refine ⟨fun hInv => Inv_accept_guess s i c hInv, accept_guess_key_grid s i c,
            [MoveEntry.guessEvent (team ++ "_Guesser") g
              ((accept_guess s i c).1.words_on_board.getD i "") false], ?_, by simp [isGuessEvent]⟩
          simp [accept_guess_move_history s i c]

theorem guessLoop_ok_inv (st : Bool) (team : String) :
    ∀ (oracle : List (Option String × Bool)) (s : GameState) (c : GameCondition)
      (s2 : GameState) (c2 : GameCondition) (n : Nat),
      guessLoop st team oracle s c = Except.ok (s2, c2, n) →
      (Inv s → Inv s2) ∧ s2.key_grid = s.key_grid ∧
        ∃ d, s2.move_history = s.move_history ++ d ∧ ∀ e ∈ d, isGuessEvent e = true := by
  intro oracle
  induction oracle with
  | nil =>
    intro s c s2 c2 n h
    simp only [guessLoop, Except.ok.injEq, Prod.mk.injEq] at h
    obtain ⟨h1, _, _⟩ := h
    subst h1
    exact ⟨id, rfl, [], by simp, by simp⟩
  | cons hd tl ih =>
    intro s c s2 c2 n h
    obtain ⟨ans, kp⟩ := hd
    simp only [guessLoop] at h
    split at h
    · exact Except.noConfusion h
    · next s1 c1 keep calls heq =>
      split at h
      · split at h
        · exact Except.noConfusion h
        · next s3 c3 calls2 heq2 =>
          simp only [Except.ok.injEq, Prod.mk.injEq] at h
          obtain ⟨h1, _, _⟩ := h
          subst h1
          obtain ⟨hi1, hk1, d1, hd1, hg1⟩ := guessIter_ok_inv st team ans kp s c s1 c1 keep calls heq
          obtain ⟨hi2, hk2, d2, hd2, hg2⟩ := ih s1 c1 s3 c3 calls2 heq2
          refine ⟨fun hInv => hi2 (hi1 hInv), hk2.trans hk1, d1 ++ d2, ?_, ?_⟩
          · rw [hd2, hd1, List.append_assoc]
          · intro e he
            rcases List.mem_append.mp he with he | he
            · exact hg1 e he
            · exact hg2 e he
      · simp only [Except.ok.injEq, Prod.mk.injEq] at h
        obtain ⟨h1, _, _⟩ := h
        subst h1
        exact guessIter_ok_inv st team ans kp s c _ c1 keep calls heq

theorem runTurn_ok_inv (st : Bool) (ti : TurnInput) (s : GameState)
    (c : GameCondition) (tc : Nat) (s2 : GameState) (c2 : GameCondition) (tc2 : Nat)
    (h : runTurn st ti s c tc = Except.ok (s2, c2, tc2)) :
    (Inv s → Inv s2) ∧ s2.key_grid = s.key_grid ∧ tc2 = tc + 1 ∧
      ∃ d, s2.move_history = s.move_history ++
          (MoveEntry.clueEvent (current_team c ++ "_Codemaster") ti.clue ti.clue_num :: d) ∧
        ∀ e ∈ d, isGuessEvent e = true := by
  unfold runTurn at h
  split at h
  · exact Except.noConfusion h
  · next s3 c3 calls heq =>
    simp only [Except.ok.injEq, Prod.mk.injEq] at h
    obtain ⟨h1, h2, h3⟩ := h
    subst h1
    obtain ⟨hi, hk, d, hd, hg⟩ := guessLoop_ok_inv st (current_team c) ti.guesses _ c s3 c3 calls heq
    refine ⟨fun hInv => hi hInv, hk, h3.symm, d, ?_, hg⟩
    rw [hd]
    simp

theorem runLoop_ok_inv (st : Bool) :
    ∀ (turns : List TurnInput) (s : GameState) (c : GameCondition) (tc : Nat)
      (s2 : GameState) (c2 : GameCondition) (tc2 : Nat),
      runLoop st turns s c tc = Except.ok (s2, c2, tc2) →
      (Inv s → Inv s2) ∧ s2.key_grid = s.key_grid ∧
        ∃ d, s2.move_history = s.move_history ++ d := by
  intro turns
  induction turns with
  | nil =>
    intro s c tc s2 c2 tc2 h
    simp only [runLoop, Except.ok.injEq, Prod.mk.injEq] at h
    obtain ⟨h1, _, _⟩ := h
    subst h1
    exact ⟨id, rfl, [], by simp⟩
  | cons t rest ih =>
    intro s c tc s2 c2 tc2 h
    simp only [runLoop] at h
    split at h
    · simp only [Except.ok.injEq, Prod.mk.injEq] at h
      obtain ⟨h1, _, _⟩ := h
      subst h1
      exact ⟨id, rfl, [], by simp⟩
    · split at h
      · exact Except.noConfusion h
      · next s3 c3 tc3 heq =>
        obtain ⟨hi1, hk1, _, d1, hd1, _⟩ := runTurn_ok_inv st t s c tc s3 c3 tc3 heq
        obtain ⟨hi2, hk2, d2, hd2⟩ := ih s3 c3 tc3 s2 c2 tc2 h
        refine ⟨fun hInv => hi2 (hi1 hInv), hk2.trans hk1, ?_⟩
        exact ⟨(MoveEntry.clueEvent (current_team c ++ "_Codemaster") t.clue t.clue_num :: d1) ++ d2,
          by rw [hd2, hd1, List.append_assoc]⟩

/-! ### Helper lemmas: terminal phases, single-team forcing, counting -/

theorem runLoop_win (st : Bool) (turns : List TurnInput) (s : GameState)
    (c : GameCondition) (tc : Nat)
    (h : c = GameCondition.RED_WIN ∨ c = GameCondition.BLUE_WIN) :
    runLoop st turns s c tc = Except.ok (s, c, tc) := by
  cases turns with
  | nil => rfl
  | cons t rest =>
    simp only [runLoop]
    rw [if_pos h]

theorem forceSingleTeam_ne_blue (c : GameCondition) :
    forceSingleTeam true c ≠ GameCondition.BLUE_TURN := by
  unfold forceSingleTeam
  split
  · decide
  · next h =>
    intro hc
    exact h ⟨rfl, hc⟩

theorem guessIter_ok_ne_blue (team : String) (a : Option String) (k : Bool)
    (s : GameState) (c : GameCondition) (s2 : GameState) (c2 : GameCondition)
    (kp : Bool) (n : Nat)
    (h : guessIter true team a k s c = Except.ok (s2, c2, kp, n))
    (hc : c ≠ GameCondition.BLUE_TURN) : c2 ≠ GameCondition.BLUE_TURN := by
  by_cases hs : a = none ∨ a = some "no comparisons"
  · rw [guessIter_sentinel true team a k s c hs] at h
    simp only [Except.ok.injEq, Prod.mk.injEq] at h
    obtain ⟨_, h2, _, _⟩ := h
    rw [← h2]
    exact hc
  · cases a with
    | none => exact absurd (Or.inl rfl) hs
    | some g =>
      have hg : g ≠ "no comparisons" := by
        intro hcg
        exact hs (Or.inr (by rw [hcg]))
      cases hidx : indexOfWord (normalizeGuess g) s.words_on_board with
      | none =>
        rw [guessIter_missing true team g k s c hg hidx] at h
        exact Except.noConfusion h
      | some i =>
        by_cases hsame : c = (accept_guess s i c).2
        · rw [guessIter_same true team g k s c i hg hidx hsame] at h
          simp only [Except.ok.injEq, Prod.mk.injEq] at h
          obtain ⟨_, h2, _, _⟩ := h
          rw [← h2]
          exact forceSingleTeam_ne_blue _
        · rw [guessIter_diff true team g k s c i hg hidx hsame] at h
          simp only [Except.ok.injEq, Prod.mk.injEq] at h
          obtain ⟨_, h2, _, _⟩ := h
          rw [← h2]
          exact forceSingleTeam_ne_blue _

theorem guessLoop_ok_ne_blue (team : String) :
    ∀ (oracle : List (Option String × Bool)) (s : GameState) (c : GameCondition)
      (s2 : GameState) (c2 : GameCondition) (n : Nat),
      guessLoop true team oracle s c = Except.ok (s2, c2, n) →
      c ≠ GameCondition.BLUE_TURN → c2 ≠ GameCondition.BLUE_TURN := by
  intro oracle
  induction oracle with
  | nil =>
    intro s c s2 c2 n h hc
    simp only [guessLoop, Except.ok.injEq, Prod.mk.injEq] at h
    obtain ⟨_, h2, _⟩ := h
    rw [← h2]
    exact hc
  | cons hd tl ih =>
    intro s c s2 c2 n h hc
    obtain ⟨ans, kp⟩ := hd
    simp only [guessLoop] at h
    split at h
    · exact Except.noConfusion h
    · next s1 c1 keep calls heq =>
      have hc1 : c1 ≠ GameCondition.BLUE_TURN :=
        guessIter_ok_ne_blue team ans kp s c s1 c1 keep calls heq hc
      split at h
      · split at h
        · exact Except.noConfusion h
        · next s3 c3 calls2 heq2 =>
          simp only [Except.ok.injEq, Prod.mk.injEq] at h
          obtain ⟨_, h2, _⟩ := h
          rw [← h2]
          exact ih s1 c1 s3 c3 calls2 heq2 hc1
      · simp only [Except.ok.injEq, Prod.mk.injEq] at h
        obtain ⟨_, h2, _⟩ := h
        rw [← h2]
        exact hc1

theorem runTurn_ok_ne_blue (ti : TurnInput) (s : GameState) (c : GameCondition)
    (tc : Nat) (s2 : GameState) (c2 : GameCondition) (tc2 : Nat)
    (h : runTurn true ti s c tc = Except.ok (s2, c2, tc2))
    (hc : c ≠ GameCondition.BLUE_TURN) : c2 ≠ GameCondition.BLUE_TURN := by
  unfold runTurn at h
  split at h
  · exact Except.noConfusion h
  · next s3 c3 calls heq =>
    simp only [Except.ok.injEq, Prod.mk.injEq] at h
    obtain ⟨_, h2, _⟩ := h
    rw [← h2]
    exact guessLoop_ok_ne_blue (current_team c) ti.guesses _ c s3 c3 calls heq hc

theorem runLoop_ok_ne_blue :
    ∀ (turns : List TurnInput) (s : GameState) (c : GameCondition) (tc : Nat)
      (s2 : GameState) (c2 : GameCondition) (tc2 : Nat),
      runLoop true turns s c tc = Except.ok (s2, c2, tc2) →
      c ≠ GameCondition.BLUE_TURN → c2 ≠ GameCondition.BLUE_TURN := by
  intro turns
  induction turns with
  | nil =>
    intro s c tc s2 c2 tc2 h hc
    simp only [runLoop, Except.ok.injEq, Prod.mk.injEq] at h
    obtain ⟨_, h2, _⟩ := h
    rw [← h2]
    exact hc
  | cons t rest ih =>
    intro s c tc s2 c2 tc2 h hc
    simp only [runLoop] at h
    split at h
    · simp only [Except.ok.injEq, Prod.mk.injEq] at h
      obtain ⟨_, h2, _⟩ := h
      rw [← h2]
      exact hc
    · split at h
      · exact Except.noConfusion h
      · next s3 c3 tc3 heq =>
        exact ih s3 c3 tc3 s2 c2 tc2 h
          (runTurn_ok_ne_blue t s c tc s3 c3 tc3 heq hc)

theorem length_eq_clues_add_guesses (h : List MoveEntry) :
    h.length = h.countP isClueEvent + h.countP isGuessEvent := by
  induction h with
  | nil => rfl
  | cons e t ih =>
    cases e with
    | clueEvent a b c =>
      simp [List.countP_cons, isClueEvent, isGuessEvent]
      omega
    | guessEvent a b c d =>
      simp [List.countP_cons, isClueEvent, isGuessEvent]
      omega

theorem countRevealed_le_key_count (s : GameState) (hInv : Inv s) (cat : String)
    (hcat : isCategory cat) :
    countRevealed s cat ≤ s.key_grid.count cat := by
  obtain ⟨hlen, _, hb⟩ := hInv
  apply count_le_count_of_zip (sentinelFor cat) cat _ _ hlen
  intro p hp hps
  have hcell := hb p hp
  rcases hcat with h | h | h | h <;> subst h
  · exact hcell.1 hps
  · exact hcell.2.1 hps
  · exact hcell.2.2.1 hps
  · exact hcell.2.2.2 hps

theorem initial_count_red : initial_key_grid.count "Red" = num_red_words := by decide

theorem initial_count_blue : initial_key_grid.count "Blue" = num_blue_words := by decide

theorem initial_count_civilian :
    initial_key_grid.count "Civilian" = num_civilian_words := by decide

theorem initial_count_assassin :
    initial_key_grid.count "Assassin" = num_assassin_words := by decide

theorem countRevealed_le_quota (s : GameState) (hInv : Inv s)
    (hperm : s.key_grid.Perm initial_key_grid) :
    countRevealed s "Red" ≤ num_red_words ∧ countRevealed s "Blue" ≤ num_blue_words ∧
      countRevealed s "Civilian" ≤ num_civilian_words ∧
      countRevealed s "Assassin" ≤ num_assassin_words := by
  have hR := countRevealed_le_key_count s hInv "Red" (Or.inl rfl)
  have hB := countRevealed_le_key_count s hInv "Blue" (Or.inr (Or.inl rfl))
  have hC := countRevealed_le_key_count s hInv "Civilian" (Or.inr (Or.inr (Or.inl rfl)))
  have hA := countRevealed_le_key_count s hInv "Assassin" (Or.inr (Or.inr (Or.inr rfl)))
  rw [hperm.count_eq] at hR hB hC hA
  exact ⟨le_trans hR (le_of_eq initial_count_red),
    le_trans hB (le_of_eq initial_count_blue),
    le_trans hC (le_of_eq initial_count_civilian),
    le_trans hA (le_of_eq initial_count_assassin)⟩

theorem forceSingleTeam_false (c : GameCondition) : forceSingleTeam false c = c := by
  unfold forceSingleTeam
  rw [if_neg]
  rintro ⟨h1, _⟩
  exact Bool.noConfusion h1

theorem forceSingleTeam_eq_of_ne (st : Bool) (c : GameCondition)
    (hc : c ≠ GameCondition.BLUE_TURN) : forceSingleTeam st c = c := by
  unfold forceSingleTeam
  rw [if_neg]
  rintro ⟨_, h2⟩
  exact hc h2

theorem forceSingleTeam_not_win (st : Bool) (c : GameCondition)
    (h1 : c ≠ GameCondition.RED_WIN) (h2 : c ≠ GameCondition.BLUE_WIN) :
    forceSingleTeam st c ≠ GameCondition.RED_WIN ∧
      forceSingleTeam st c ≠ GameCondition.BLUE_WIN := by
  unfold forceSingleTeam
  split
  · exact ⟨by decide, by decide⟩
  · exact ⟨h1, h2⟩

theorem guessLoop_sentinel (st : Bool) (team : String) (a : Option String) (k : Bool)
    (rest : List (Option String × Bool)) (s : GameState) (c : GameCondition)
    (h : a = none ∨ a = some "no comparisons") :
    guessLoop st team ((a, k) :: rest) s c = Except.ok (s, c, 0) := by
  simp only [guessLoop]
  rw [guessIter_sentinel st team a k s c h]
  rfl

/-! ### Claim theorems -/

/-- C5: the phases `RED_WIN` and `BLUE_WIN` are terminal: whenever the game
condition is a win condition, the outer loop of `Game.run` performs no
further turn — the state, the condition and the turn counter are returned
unchanged, so no guess is resolved, board and history are not mutated, and
no non-terminal phase is ever re-entered — and exactly one of the two win
phases holds. -/
theorem win_phases_are_terminal (st : Bool) (turns : List TurnInput) (s : GameState)
    (c : GameCondition) (tc : Nat)
    (h : c = GameCondition.RED_WIN ∨ c = GameCondition.BLUE_WIN) :
    runLoop st turns s c tc = Except.ok (s, c, tc) ∧
      ¬(c = GameCondition.RED_WIN ∧ c = GameCondition.BLUE_WIN) := by
  refine ⟨runLoop_win st turns s c tc h, ?_⟩
  intro hc
  rw [hc.1] at hc
  exact GameCondition.noConfusion hc.2

/-- Witness for C5 at a concrete terminal state. -/
theorem win_phases_are_terminal_witness :
    runLoop false [⟨"clue", 1, [(some "ALPHA", true)]⟩] sample_state
        GameCondition.RED_WIN 3 =
      Except.ok (sample_state, GameCondition.RED_WIN, 3) ∧
      ¬(GameCondition.RED_WIN = GameCondition.RED_WIN ∧
        GameCondition.RED_WIN = GameCondition.BLUE_WIN) :=
  win_phases_are_terminal false [⟨"clue", 1, [(some "ALPHA", true)]⟩] sample_state
    GameCondition.RED_WIN 3 (Or.inl rfl)

/-- C6: when the guesser's answer is `None` or the sentinel
`"no comparisons"`, the inner guessing round ends at once (line 340's
`break`): the remaining guesser responses are never consumed,
`keep_guessing()` is called zero times, no guess event is appended to the
move history, no cell is revealed, and the state is returned unchanged. -/
theorem sentinel_answer_ends_round (st : Bool) (team : String) (a : Option String)
    (k : Bool) (rest : List (Option String × Bool)) (s : GameState) (c : GameCondition)
    (h : a = none ∨ a = some "no comparisons") :
    guessLoop st team ((a, k) :: rest) s c = Except.ok (s, c, 0) :=
  guessLoop_sentinel st team a k rest s c h

/-- Witness for C6 at a concrete state and sentinel answer. -/
theorem sentinel_answer_ends_round_witness :
    guessLoop false "Red" [(some "no comparisons", true), (some "ALPHA", true)]
        mini_state GameCondition.RED_TURN =
      Except.ok (mini_state, GameCondition.RED_TURN, 0) :=
  sentinel_answer_ends_round false "Red" (some "no comparisons") true
    [(some "ALPHA", true)] mini_state GameCondition.RED_TURN (Or.inr rfl)

/-- C10: when the guesser answers with the sentinel (or no answer), the
phase is left unchanged by the whole turn: the turn ends with the same
`game_condition`, the turn counter incremented by one, and only the clue
event recorded — so the next iteration of the outer loop selects the same
team's codemaster again. -/
theorem sentinel_guess_preserves_turn (st : Bool) (ti : TurnInput) (s : GameState)
    (c : GameCondition) (tc : Nat) (a : Option String) (k : Bool)
    (rest : List (Option String × Bool))
    (hg : ti.guesses = (a, k) :: rest)
    (h : a = none ∨ a = some "no comparisons") :
    runTurn st ti s c tc =
      Except.ok
        ({ s with move_history := s.move_history ++
            [MoveEntry.clueEvent (current_team c ++ "_Codemaster") ti.clue ti.clue_num] },
          c, tc + 1) := by
  unfold runTurn
  rw [hg, guessLoop_sentinel st (current_team c) a k rest _ c h]

/-- Witness for C10 at a concrete turn. -/
theorem sentinel_guess_preserves_turn_witness :
    runTurn false ⟨"hint", 2, [(none, true)]⟩ mini_state GameCondition.BLUE_TURN 5 =
      Except.ok
        ({ mini_state with move_history := mini_state.move_history ++
            [MoveEntry.clueEvent (current_team GameCondition.BLUE_TURN ++ "_Codemaster")
              "hint" 2] },
          GameCondition.BLUE_TURN, 6) :=
  sentinel_guess_preserves_turn false ⟨"hint", 2, [(none, true)]⟩ mini_state
    GameCondition.BLUE_TURN 5 none true [] rfl (Or.inl rfl)

/-- C8: in single-team mode, any condition that would hand the turn to the
blue team is forced back to `RED_TURN` (lines 361-363), so across any run
of the outer loop starting from a non-`BLUE_TURN` condition, `BLUE_TURN` is
never the resulting condition. -/
theorem single_team_never_blue_turn (turns : List TurnInput) (s : GameState)
    (c : GameCondition) (tc : Nat) (s2 : GameState) (c2 : GameCondition) (tc2 : Nat)
    (hc : c ≠ GameCondition.BLUE_TURN)
    (h : runLoop true turns s c tc = Except.ok (s2, c2, tc2)) :
    c2 ≠ GameCondition.BLUE_TURN ∧
      forceSingleTeam true GameCondition.BLUE_TURN = GameCondition.RED_TURN :=
  ⟨runLoop_ok_ne_blue turns s c tc s2 c2 tc2 h hc, rfl⟩

/-- Witness for C8: a single-team run in which a civilian guess would flip
the turn to blue still ends in `RED_TURN`. -/
theorem single_team_never_blue_turn_witness :
    GameCondition.RED_TURN ≠ GameCondition.BLUE_TURN ∧
      forceSingleTeam true GameCondition.BLUE_TURN = GameCondition.RED_TURN :=
  single_team_never_blue_turn [⟨"hint", 1, [(some "BRAVO", true)]⟩] mini_state
    GameCondition.RED_TURN 0 _ GameCondition.RED_TURN 1 (by decide) rfl

/-- C9: the move history is append-only — any successful run leaves the
starting history as a prefix, extended only by the clue events and guess
events recorded during the run — and since every entry is exactly one of
the two event kinds, the history length always equals the number of clue
events plus the number of guess events. -/
theorem move_history_append_only (st : Bool) (turns : List TurnInput) (s : GameState)
    (c : GameCondition) (tc : Nat) (s2 : GameState) (c2 : GameCondition) (tc2 : Nat)
    (h : runLoop st turns s c tc = Except.ok (s2, c2, tc2)) :
    (∃ d, s2.move_history = s.move_history ++ d) ∧
      s2.move_history.length =
        s2.move_history.countP isClueEvent + s2.move_history.countP isGuessEvent := by
  obtain ⟨_, _, hd⟩ := runLoop_ok_inv st turns s c tc s2 c2 tc2 h
  exact ⟨hd, length_eq_clues_add_guesses _⟩

/-- Witness for C9: a run with one clue and one recorded guess. -/
theorem move_history_append_only_witness :
    (∃ d, ({ mini_state with
        move_history := mini_state.move_history ++
          [MoveEntry.clueEvent "Red_Codemaster" "sky" 2] } : GameState).move_history =
      mini_state.move_history ++ d) ∧
      ({ mini_state with
        move_history := mini_state.move_history ++
          [MoveEntry.clueEvent "Red_Codemaster" "sky" 2] } : GameState).move_history.length =
        ({ mini_state with
          move_history := mini_state.move_history ++
            [MoveEntry.clueEvent "Red_Codemaster" "sky" 2] } : GameState).move_history.countP
            isClueEvent +
          ({ mini_state with
            move_history := mini_state.move_history ++
              [MoveEntry.clueEvent "Red_Codemaster" "sky" 2] } : GameState).move_history.countP
            isGuessEvent :=
  move_history_append_only false [⟨"sky", 2, [(none, true)]⟩] mini_state
    GameCondition.RED_TURN 0 _ GameCondition.RED_TURN 1 rfl

/-- C1: in any state, a resolved guess whose cell's hidden category is
`"Assassin"` reveals the cell (the board entry becomes `"*Assassin*"`) and
ends the game immediately in the other team's win: `BLUE_WIN` when guessed
on `RED_TURN` and `RED_WIN` when guessed on `BLUE_TURN`, with no further
guesses — the rest of the guess trace is never consumed, `keep_guessing()`
is not called, and the outer loop performs no further turn from a win
condition. -/
theorem assassin_guess_ends_game (st : Bool) (team g : String) (k : Bool)
    (rest : List (Option String × Bool)) (s : GameState) (i : Nat)
    (hg : g ≠ "no comparisons")
    (hidx : indexOfWord (normalizeGuess g) s.words_on_board = some i)
    (hkey : s.key_grid.getD i "" = "Assassin") :
    (∃ s2, guessLoop st team ((some g, k) :: rest) s GameCondition.RED_TURN =
        Except.ok (s2, GameCondition.BLUE_WIN, 0) ∧
      s2.words_on_board = s.words_on_board.set i "*Assassin*") ∧
    (∃ s2, guessLoop st team ((some g, k) :: rest) s GameCondition.BLUE_TURN =
        Except.ok (s2, GameCondition.RED_WIN, 0) ∧
      s2.words_on_board = s.words_on_board.set i "*Assassin*") ∧
    (∀ turns t tc, runLoop st turns t GameCondition.BLUE_WIN tc =
        Except.ok (t, GameCondition.BLUE_WIN, tc)) ∧
    (∀ turns t tc, runLoop st turns t GameCondition.RED_WIN tc =
        Except.ok (t, GameCondition.RED_WIN, tc)) := by
  refine ⟨?_, ?_, fun turns t tc => runLoop_win st turns t _ tc (Or.inr rfl),
    fun turns t tc => runLoop_win st turns t _ tc (Or.inl rfl)⟩
  · have hag := accept_guess_assassin s i GameCondition.RED_TURN hkey
    rw [if_pos rfl] at hag
    have hdiff : ¬GameCondition.RED_TURN = (accept_guess s i GameCondition.RED_TURN).2 := by
      rw [hag]
      intro hx
      exact GameCondition.noConfusion hx
    have hit := guessIter_diff st team g k s GameCondition.RED_TURN i hg hidx hdiff
    refine ⟨{ (accept_guess s i GameCondition.RED_TURN).1 with
        move_history := (accept_guess s i GameCondition.RED_TURN).1.move_history ++
          [MoveEntry.guessEvent (team ++ "_Guesser") g
            ((accept_guess s i GameCondition.RED_TURN).1.words_on_board.getD i "") false] },
      ?_, ?_⟩
    · simp only [guessLoop]
      rw [hit]
      have h2 : (accept_guess s i GameCondition.RED_TURN).2 = GameCondition.BLUE_WIN := by
        rw [hag]
      rw [h2, forceSingleTeam_eq_of_ne st GameCondition.BLUE_WIN (by decide)]
      rfl
    · rw [hag]
  · have hag := accept_guess_assassin s i GameCondition.BLUE_TURN hkey
    rw [if_neg (by decide)] at hag
    have hdiff : ¬GameCondition.BLUE_TURN = (accept_guess s i GameCondition.BLUE_TURN).2 := by
      rw [hag]
      intro hx
      exact GameCondition.noConfusion hx
    have hit := guessIter_diff st team g k s GameCondition.BLUE_TURN i hg hidx hdiff
    refine ⟨{ (accept_guess s i GameCondition.BLUE_TURN).1 with
        move_history := (accept_guess s i GameCondition.BLUE_TURN).1.move_history ++
          [MoveEntry.guessEvent (team ++ "_Guesser") g
            ((accept_guess s i GameCondition.BLUE_TURN).1.words_on_board.getD i "") false] },
      ?_, ?_⟩
    · simp only [guessLoop]
      rw [hit]
      have h2 : (accept_guess s i GameCondition.BLUE_TURN).2 = GameCondition.RED_WIN := by
        rw [hag]
      rw [h2, forceSingleTeam_eq_of_ne st GameCondition.RED_WIN (by decide)]
      rfl
    · rw [hag]

/-- Witness for C1: guessing the assassin cell of a concrete board. -/
theorem assassin_guess_ends_game_witness :
    (∃ s2, guessLoop false "Red" [(some "CHARLIE", false)] mini_state
        GameCondition.RED_TURN =
        Except.ok (s2, GameCondition.BLUE_WIN, 0) ∧
      s2.words_on_board = mini_state.words_on_board.set 2 "*Assassin*") ∧
    (∃ s2, guessLoop false "Red" [(some "CHARLIE", false)] mini_state
        GameCondition.BLUE_TURN =
        Except.ok (s2, GameCondition.RED_WIN, 0) ∧
      s2.words_on_board = mini_state.words_on_board.set 2 "*Assassin*") ∧
    (∀ turns t tc, runLoop false turns t GameCondition.BLUE_WIN tc =
        Except.ok (t, GameCondition.BLUE_WIN, tc)) ∧
    (∀ turns t tc, runLoop false turns t GameCondition.RED_WIN tc =
        Except.ok (t, GameCondition.RED_WIN, tc)) :=
  assassin_guess_ends_game false "Red" "CHARLIE" false [] mini_state 2
    (by decide) rfl rfl

/-- C4: a resolved guess whose cell is `"Civilian"` reveals the cell as
`"*Civilian*"`, wins nothing (the resulting condition is never a win), is
recorded in the move history with continued flag `false`, and the condition
becomes the other team's turn — except that in single-team mode the forcing
of lines 361-363 maps a would-be `BLUE_TURN` back to `RED_TURN`; with
`single_team = false` the result is exactly `flipTurn c`. -/
theorem civilian_guess_flips_turn (st : Bool) (team g : String) (k : Bool)
    (s : GameState) (i : Nat) (c : GameCondition)
    (hc : c = GameCondition.RED_TURN ∨ c = GameCondition.BLUE_TURN)
    (hg : g ≠ "no comparisons")
    (hidx : indexOfWord (normalizeGuess g) s.words_on_board = some i)
    (hkey : s.key_grid.getD i "" = "Civilian") :
    ∃ s2, guessIter st team (some g) k s c =
        Except.ok (s2, forceSingleTeam st (flipTurn c), false, 0) ∧
      s2.words_on_board = s.words_on_board.set i "*Civilian*" ∧
      s2.move_history = s.move_history ++
        [MoveEntry.guessEvent (team ++ "_Guesser") g "*Civilian*" false] ∧
      (st = false → forceSingleTeam st (flipTurn c) = flipTurn c) ∧
      (st = true → c = GameCondition.RED_TURN →
        forceSingleTeam st (flipTurn c) = GameCondition.RED_TURN) ∧
      forceSingleTeam st (flipTurn c) ≠ GameCondition.RED_WIN ∧
      forceSingleTeam st (flipTurn c) ≠ GameCondition.BLUE_WIN := by
  have hlt : i < s.words_on_board.length := by
    have hsome := indexOfWord_getElem? (normalizeGuess g) s.words_on_board i hidx
    obtain ⟨hlt, _⟩ := List.getElem?_eq_some.mp hsome
    exact hlt
  have hr : ¬s.key_grid.getD i "" = "Red" := by rw [hkey]; decide
  have hb2 : ¬s.key_grid.getD i "" = "Blue" := by rw [hkey]; decide
  have ha2 : ¬s.key_grid.getD i "" = "Assassin" := by rw [hkey]; decide
  have hag := accept_guess_civilian s i c hr hb2 ha2
  have hflip : (accept_guess s i c).2 = flipTurn c := by
    rcases hc with h | h <;> subst h
    · rw [hag, if_pos rfl]
      rfl
    · rw [hag, if_neg (by decide)]
      rfl
  have hwords : (accept_guess s i c).1.words_on_board =
      s.words_on_board.set i "*Civilian*" := by
    rcases hc with h | h <;> subst h
    · rw [hag, if_pos rfl]
    · rw [hag, if_neg (by decide)]
  have hdiff : ¬c = (accept_guess s i c).2 := by
    rw [hflip]
    rcases hc with h | h <;> subst h <;> decide
  have hit := guessIter_diff st team g k s c i hg hidx hdiff
  refine ⟨{ (accept_guess s i c).1 with
      move_history := (accept_guess s i c).1.move_history ++
        [MoveEntry.guessEvent (team ++ "_Guesser") g
          ((accept_guess s i c).1.words_on_board.getD i "") false] },
    ?_, ?_, ?_, ?_, ?_, ?_, ?_⟩
  · rw [hit, hflip]
  · exact hwords
  · show (accept_guess s i c).1.move_history ++
        [MoveEntry.guessEvent (team ++ "_Guesser") g
          ((accept_guess s i c).1.words_on_board.getD i "") false] =
      s.move_history ++ [MoveEntry.guessEvent (team ++ "_Guesser") g "*Civilian*" false]
    rw [accept_guess_move_history s i c, hwords,
      getD_set_self s.words_on_board i "*Civilian*" "" hlt]
  · intro hst
    subst hst
    exact forceSingleTeam_false _
  · intro hst hcr
    subst hst
    subst hcr
    rfl
  · exact (forceSingleTeam_not_win st (flipTurn c)
      (by rcases hc with h | h <;> subst h <;> decide)
      (by rcases hc with h | h <;> subst h <;> decide)).1
  · exact (forceSingleTeam_not_win st (flipTurn c)
      (by rcases hc with h | h <;> subst h <;> decide)
      (by rcases hc with h | h <;> subst h <;> decide)).2

/-- Witness for C4: a civilian guess (including the `.upper().strip()`
normalisation) on a concrete board. -/
theorem civilian_guess_flips_turn_witness :
    ∃ s2, guessIter false "Red" (some "bravo ") true mini_state GameCondition.RED_TURN =
        Except.ok (s2, forceSingleTeam false (flipTurn GameCondition.RED_TURN), false, 0) ∧
      s2.words_on_board = mini_state.words_on_board.set 1 "*Civilian*" ∧
      s2.move_history = mini_state.move_history ++
        [MoveEntry.guessEvent ("Red" ++ "_Guesser") "bravo " "*Civilian*" false] ∧
      (false = false →
        forceSingleTeam false (flipTurn GameCondition.RED_TURN) =
          flipTurn GameCondition.RED_TURN) ∧
      (false = true → GameCondition.RED_TURN = GameCondition.RED_TURN →
        forceSingleTeam false (flipTurn GameCondition.RED_TURN) =
          GameCondition.RED_TURN) ∧
      forceSingleTeam false (flipTurn GameCondition.RED_TURN) ≠ GameCondition.RED_WIN ∧
      forceSingleTeam false (flipTurn GameCondition.RED_TURN) ≠ GameCondition.BLUE_WIN :=
  civilian_guess_flips_turn false "Red" "bravo " true mini_state 1 GameCondition.RED_TURN
    (Or.inl rfl) (by decide) rfl rfl

/-- C3: a guess by the active team on its own category that does not reach
the team's quota leaves the phase unchanged (`_accept_guess` returns the
current condition), the engine calls `keep_guessing()` exactly once and the
loop continues exactly when it returns true; when it returns false the
phase flips explicitly to the other team's turn (and flipping really
changes the phase).  Stated for the two-team game (`single_team = false`);
in single-team mode lines 361-363 additionally force a blue turn back to
red. -/
theorem own_category_guess_keeps_phase (team g : String) (k : Bool) (s : GameState)
    (i : Nat) (c : GameCondition)
    (hc : c = GameCondition.RED_TURN ∨ c = GameCondition.BLUE_TURN)
    (hg : g ≠ "no comparisons")
    (hidx : indexOfWord (normalizeGuess g) s.words_on_board = some i)
    (hkey : s.key_grid.getD i "" = current_team c)
    (hq : (s.words_on_board.set i (sentinelFor (current_team c))).count
        (sentinelFor (current_team c)) < team_quota c) :
    (accept_guess s i c).2 = c ∧
    ∃ s2, guessIter false team (some g) k s c =
        Except.ok (s2, (if k then c else flipTurn c), k, 1) ∧
      s2.words_on_board = s.words_on_board.set i (sentinelFor (current_team c)) ∧
      s2.move_history = s.move_history ++
        [MoveEntry.guessEvent (team ++ "_Guesser") g (sentinelFor (current_team c)) k] ∧
      flipTurn c ≠ c ∧
      (∀ rest, k = true →
        guessLoop false team ((some g, k) :: rest) s c =
          match guessLoop false team rest s2 c with
          | Except.error e => Except.error e
          | Except.ok (s3, c3, n) => Except.ok (s3, c3, 1 + n)) := by
  have hlt : i < s.words_on_board.length := by
    have hsome := indexOfWord_getElem? (normalizeGuess g) s.words_on_board i hidx
    obtain ⟨hlt, _⟩ := List.getElem?_eq_some.mp hsome
    exact hlt
  have hsame : (accept_guess s i c).2 = c := by
    rcases hc with h | h <;> subst h
    · have hag := accept_guess_red s i GameCondition.RED_TURN hkey
      have hq2 : ¬num_red_words ≤ (s.words_on_board.set i "*Red*").count "*Red*" :=
        Nat.not_le.mpr hq
      rw [hag, if_neg hq2]
    · have hag := accept_guess_blue s i GameCondition.BLUE_TURN hkey
      have hq2 : ¬num_blue_words ≤ (s.words_on_board.set i "*Blue*").count "*Blue*" :=
        Nat.not_le.mpr hq
      rw [hag, if_neg hq2]
  have hwords : (accept_guess s i c).1.words_on_board =
      s.words_on_board.set i (sentinelFor (current_team c)) := by
    rcases hc with h | h <;> subst h
    · have hag := accept_guess_red s i GameCondition.RED_TURN hkey
      have hq2 : ¬num_red_words ≤ (s.words_on_board.set i "*Red*").count "*Red*" :=
        Nat.not_le.mpr hq
      rw [hag, if_neg hq2]
      rfl
    · have hag := accept_guess_blue s i GameCondition.BLUE_TURN hkey
      have hq2 : ¬num_blue_words ≤ (s.words_on_board.set i "*Blue*").count "*Blue*" :=
        Nat.not_le.mpr hq
      rw [hag, if_neg hq2]
      rfl
  have hit := guessIter_same false team g k s c i hg hidx hsame.symm
  refine ⟨hsame, { (accept_guess s i c).1 with
      move_history := (accept_guess s i c).1.move_history ++
        [MoveEntry.guessEvent (team ++ "_Guesser") g
          ((accept_guess s i c).1.words_on_board.getD i "") k] },
    ?_, ?_, ?_, ?_, ?_⟩
  · rw [hit, forceSingleTeam_false]
  · exact hwords
  · show (accept_guess s i c).1.move_history ++
        [MoveEntry.guessEvent (team ++ "_Guesser") g
          ((accept_guess s i c).1.words_on_board.getD i "") k] =
      s.move_history ++
        [MoveEntry.guessEvent (team ++ "_Guesser") g (sentinelFor (current_team c)) k]
    rw [accept_guess_move_history s i c, hwords,
      getD_set_self s.words_on_board i (sentinelFor (current_team c)) "" hlt]
  · rcases hc with h | h <;> subst h <;> decide
  · intro rest hk
    subst hk
    simp only [guessLoop]
    rw [hit]
    rfl

/-- Witness for C3: a red own-cell guess that does not complete the quota,
with `keep_guessing` answering false. -/
theorem own_category_guess_keeps_phase_witness :
    (accept_guess mini_state 0 GameCondition.RED_TURN).2 = GameCondition.RED_TURN ∧
    ∃ s2, guessIter false "Red" (some "ALPHA") false mini_state GameCondition.RED_TURN =
        Except.ok (s2,
          (if false then GameCondition.RED_TURN else flipTurn GameCondition.RED_TURN),
          false, 1) ∧
      s2.words_on_board = mini_state.words_on_board.set 0
        (sentinelFor (current_team GameCondition.RED_TURN)) ∧
      s2.move_history = mini_state.move_history ++
        [MoveEntry.guessEvent ("Red" ++ "_Guesser") "ALPHA"
          (sentinelFor (current_team GameCondition.RED_TURN)) false] ∧
      flipTurn GameCondition.RED_TURN ≠ GameCondition.RED_TURN ∧
      (∀ rest, false = true →
        guessLoop false "Red" ((some "ALPHA", false) :: rest) mini_state
            GameCondition.RED_TURN =
          match guessLoop false "Red" rest s2 GameCondition.RED_TURN with
          | Except.error e => Except.error e
          | Except.ok (s3, c3, n) => Except.ok (s3, c3, 1 + n)) :=
  own_category_guess_keeps_phase "Red" "ALPHA" false mini_state 0 GameCondition.RED_TURN
    (Or.inl rfl) (by decide) rfl rfl (by decide)

/-- C7: a non-sentinel answer whose normalised word is absent from the
current board view makes the lookup of line 341 fail, so the engine stops
with `invalidGuess` (the spec's `InvalidGuessError`; CPython's `ValueError`
from `list.index`) without revealing any cell or touching the state; and a
word whose cell has just been revealed is absent from the view afterwards
(the cell now displays a category marker), so guessing it is rejected the
same way. -/
theorem invalid_guess_rejected (st : Bool) (team g : String) (k : Bool)
    (rest : List (Option String × Bool)) (s : GameState) (c : GameCondition)
    (i : Nat) (c0 : GameCondition) :
    (g ≠ "no comparisons" →
      indexOfWord (normalizeGuess g) s.words_on_board = none →
      guessLoop st team ((some g, k) :: rest) s c =
        Except.error (GameError.invalidGuess g)) ∧
    (s.words_on_board[i]? = some (normalizeGuess g) →
      s.words_on_board.count (normalizeGuess g) = 1 →
      (∀ cat, isCategory cat → normalizeGuess g ≠ sentinelFor cat) →
      indexOfWord (normalizeGuess g) (accept_guess s i c0).1.words_on_board = none) := by
  constructor
  · intro hg hidx
    simp only [guessLoop]
    rw [guessIter_missing st team g k s c hg hidx]
  · intro hmem hcount hns
    obtain ⟨cat, hcat, hwords⟩ := accept_guess_words s i c0
    rw [hwords, indexOfWord_eq_none_iff]
    exact not_mem_set_of_count_one (normalizeGuess g) (sentinelFor cat)
      (Ne.symm (hns cat hcat)) s.words_on_board i hmem hcount

/-- Witness for C7: an off-board word is rejected, and a just-revealed
word is no longer on the board view. -/
theorem invalid_guess_rejected_witness :
    guessLoop false "Red" [(some "ZEBRA", true)] mini_state GameCondition.RED_TURN =
        Except.error (GameError.invalidGuess "ZEBRA") ∧
      indexOfWord (normalizeGuess "alpha")
        (accept_guess mini_state 0 GameCondition.RED_TURN).1.words_on_board = none :=
  ⟨(invalid_guess_rejected false "Red" "ZEBRA" true [] mini_state GameCondition.RED_TURN
      0 GameCondition.RED_TURN).1 (by decide) rfl,
    (invalid_guess_rejected false "Red" "alpha" true [] mini_state GameCondition.RED_TURN
      0 GameCondition.RED_TURN).2 rfl rfl
      (by intro cat hcat; rcases hcat with h | h | h | h <;> subst h <;> decide)⟩

/-- C2: starting from a consistent state whose key grid is a shuffle of the
configured 9/8/7/1 grid, any successful run keeps the number of revealed
cells of each category at or below that category's quota; and a guess that
reveals a team-category cell produces that team's win exactly when the
revealed count of that category reaches the team's quota. -/
theorem quota_bound_and_win_condition (st : Bool) (turns : List TurnInput)
    (s : GameState) (c : GameCondition) (tc : Nat) (s2 : GameState)
    (c2 : GameCondition) (tc2 : Nat) (i : Nat) (c0 : GameCondition)
    (hInv : Inv s) (hperm : s.key_grid.Perm initial_key_grid) :
    (runLoop st turns s c tc = Except.ok (s2, c2, tc2) →
      countRevealed s2 "Red" ≤ num_red_words ∧
        countRevealed s2 "Blue" ≤ num_blue_words ∧
        countRevealed s2 "Civilian" ≤ num_civilian_words ∧
        countRevealed s2 "Assassin" ≤ num_assassin_words) ∧
    (s.key_grid.getD i "" = "Red" →
      ((accept_guess s i c0).2 = GameCondition.RED_WIN ↔
        countRevealed (accept_guess s i c0).1 "Red" = num_red_words)) ∧
    (s.key_grid.getD i "" = "Blue" →
      ((accept_guess s i c0).2 = GameCondition.BLUE_WIN ↔
        countRevealed (accept_guess s i c0).1 "Blue" = num_blue_words)) := by
  refine ⟨?_, ?_, ?_⟩
  · intro h
    obtain ⟨hi, hk, _⟩ := runLoop_ok_inv st turns s c tc s2 c2 tc2 h
    exact countRevealed_le_quota s2 (hi hInv) (hk ▸ hperm)
  · intro hkey
    have hag := accept_guess_red s i c0 hkey
    have hInv2 : Inv (accept_guess s i c0).1 := Inv_accept_guess s i c0 hInv
    have hperm2 : (accept_guess s i c0).1.key_grid.Perm initial_key_grid := by
      rw [accept_guess_key_grid s i c0]
      exact hperm
    have hbound := (countRevealed_le_quota _ hInv2 hperm2).1
    by_cases hcnt : num_red_words ≤ (s.words_on_board.set i "*Red*").count "*Red*"
    · have hwords : (accept_guess s i c0).1.words_on_board =
          s.words_on_board.set i "*Red*" := by
        rw [hag, if_pos hcnt]
      have hcr : countRevealed (accept_guess s i c0).1 "Red" =
          (s.words_on_board.set i "*Red*").count "*Red*" := by
        unfold countRevealed
        rw [hwords]
        rfl
      have hwin : (accept_guess s i c0).2 = GameCondition.RED_WIN := by
        rw [hag, if_pos hcnt]
      constructor
      · intro _
        rw [hcr] at hbound ⊢
        omega
      · intro _
        exact hwin
    · have hwords : (accept_guess s i c0).1.words_on_board =
          s.words_on_board.set i "*Red*" := by
        rw [hag, if_neg hcnt]
      have hturn : (accept_guess s i c0).2 = GameCondition.RED_TURN := by
        rw [hag, if_neg hcnt]
      constructor
      · intro hw
        rw [hturn] at hw
        exact absurd hw (by decide)
      · intro hcRed
        exfalso
        have hcr : countRevealed (accept_guess s i c0).1 "Red" =
            (s.words_on_board.set i "*Red*").count "*Red*" := by
          unfold countRevealed
          rw [hwords]
          rfl
        rw [hcr] at hcRed
        exact hcnt (le_of_eq hcRed.symm)
  · intro hkey
    have hag := accept_guess_blue s i c0 hkey
    have hInv2 : Inv (accept_guess s i c0).1 := Inv_accept_guess s i c0 hInv
    have hperm2 : (accept_guess s i c0).1.key_grid.Perm initial_key_grid := by
      rw [accept_guess_key_grid s i c0]
      exact hperm
    have hbound := (countRevealed_le_quota _ hInv2 hperm2).2.1
    by_cases hcnt : num_blue_words ≤ (s.words_on_board.set i "*Blue*").count "*Blue*"
    · have hwords : (accept_guess s i c0).1.words_on_board =
          s.words_on_board.set i "*Blue*" := by
        rw [hag, if_pos hcnt]
      have hcr : countRevealed (accept_guess s i c0).1 "Blue" =
          (s.words_on_board.set i "*Blue*").count "*Blue*" := by
        unfold countRevealed
        rw [hwords]
        rfl
      have hwin : (accept_guess s i c0).2 = GameCondition.BLUE_WIN := by
        rw [hag, if_pos hcnt]
      constructor
      · intro _
        rw [hcr] at hbound ⊢
        omega
      · intro _
        exact hwin
    · have hwords : (accept_guess s i c0).1.words_on_board =
          s.words_on_board.set i "*Blue*" := by
        rw [hag, if_neg hcnt]
      have hturn : (accept_guess s i c0).2 = GameCondition.BLUE_TURN := by
        rw [hag, if_neg hcnt]
      constructor
      · intro hw
        rw [hturn] at hw
        exact absurd hw (by decide)
      · intro hcBlue
        exfalso
        have hcr : countRevealed (accept_guess s i c0).1 "Blue" =
            (s.words_on_board.set i "*Blue*").count "*Blue*" := by
          unfold countRevealed
          rw [hwords]
          rfl
        rw [hcr] at hcBlue
        exact hcnt (le_of_eq hcBlue.symm)

/-- Witness for C2 on the concrete full board: the empty run keeps all
counts at or below quota, and a red reveal at cell 0 wins exactly when the
red count reaches 9. -/
theorem quota_bound_and_win_condition_witness :
    (countRevealed sample_state "Red" ≤ num_red_words ∧
      countRevealed sample_state "Blue" ≤ num_blue_words ∧
      countRevealed sample_state "Civilian" ≤ num_civilian_words ∧
      countRevealed sample_state "Assassin" ≤ num_assassin_words) ∧
    ((accept_guess sample_state 0 GameCondition.RED_TURN).2 = GameCondition.RED_WIN ↔
      countRevealed (accept_guess sample_state 0 GameCondition.RED_TURN).1 "Red" =
        num_red_words) := by
  have h := quota_bound_and_win_condition false [] sample_state GameCondition.RED_TURN 0
    sample_state GameCondition.RED_TURN 0 0 GameCondition.RED_TURN (by decide)
    (List.Perm.refl _)
  exact ⟨h.1 rfl, h.2.1 rfl⟩

end Codenames
